import Mathlib

/-!
Verification development for the waveform-renderer rendering and caching
pipeline. The definitions below are a shallow embedding of the TypeScript
sources (src/renderer.ts, src/event-handler.ts, src/utils/peaks.ts,
src/utils/canvas.ts, src/constants): numeric values are modelled as exact
rationals where the code only performs finite arithmetic; the one place
where JavaScript division by zero and NaN propagation matter
(seek-progress computation) uses an explicit model of JS numbers with
infinities and NaN. Canvas side effects are modelled as traces of drawing
commands; object identity (reference equality) of cache entries and of the
caller-supplied peaks array is modelled with allocation ids and an
explicit address-indexed store.
-/

/-- Vertical anchor mode, source type `RenderMode` ("top" | "center" | "bottom"). -/
inductive RenderMode where
  | top
  | center
  | bottom
deriving DecidableEq

/-- Stroke pattern of the progress line, source type "solid" | "dashed" | "dotted". -/
inductive LineStyle where
  | solid
  | dashed
  | dotted
deriving DecidableEq

/-- Progress line options, source type `ProgressLineOptions` (all fields required,
as in `Required<ProgressLineOptions>`). -/
structure ProgressLineOpts where
  color : String
  heightPercent : ℚ
  position : RenderMode
  style : LineStyle
  width : ℚ
deriving DecidableEq

/-- Waveform style options, source type `Required<WaveformOptions>`. -/
structure OptionsR where
  amplitude : ℚ
  backgroundColor : String
  barWidth : ℚ
  borderColor : String
  borderRadius : ℚ
  borderWidth : ℚ
  color : String
  debug : Bool
  gap : ℚ
  minPixelR : ℚ
  position : RenderMode
  progress : ℚ
  progressLine : Option ProgressLineOpts
  smoothing : Bool
deriving DecidableEq

/-- Source `DEFAULT_OPTIONS` from src/constants (the `minPixelR` field embeds the
source field `minPixelRatio`). -/
def DEFAULT_OPTIONS : OptionsR :=
  { amplitude := 1
    backgroundColor := "#CCCCCC"
    barWidth := 2
    borderColor := "#000000"
    borderRadius := 0
    borderWidth := 0
    color := "#000000"
    gap := 1
    minPixelR := 1
    position := RenderMode.center
    progress := 0
    debug := false
    smoothing := true
    progressLine := some
      { color := "#FF0000"
        heightPercent := 1
        position := RenderMode.center
        style := LineStyle.solid
        width := 2 } }

/-- A `Partial<WaveformOptions>` record: absent fields are `none`. The
`progressLine` field distinguishes absent (`none`) from present-but-null
(`some none`). -/
structure OptionsPatch where
  amplitude : Option ℚ
  backgroundColor : Option String
  barWidth : Option ℚ
  borderColor : Option String
  borderRadius : Option ℚ
  borderWidth : Option ℚ
  color : Option String
  debug : Option Bool
  gap : Option ℚ
  minPixelR : Option ℚ
  position : Option RenderMode
  progress : Option ℚ
  progressLine : Option (Option ProgressLineOpts)
  smoothing : Option Bool
deriving DecidableEq

/-- The empty partial-options record (no field present). -/
def emptyPatch : OptionsPatch :=
  ⟨none, none, none, none, none, none, none, none, none, none, none, none, none, none⟩

/-- JavaScript object spread `{...o, ...p}` over the flat options record,
as used in `WaveformRenderer.setOptions`. -/
def mergeOptions (o : OptionsR) (p : OptionsPatch) : OptionsR :=
  { amplitude := p.amplitude.getD o.amplitude
    backgroundColor := p.backgroundColor.getD o.backgroundColor
    barWidth := p.barWidth.getD o.barWidth
    borderColor := p.borderColor.getD o.borderColor
    borderRadius := p.borderRadius.getD o.borderRadius
    borderWidth := p.borderWidth.getD o.borderWidth
    color := p.color.getD o.color
    debug := p.debug.getD o.debug
    gap := p.gap.getD o.gap
    minPixelR := p.minPixelR.getD o.minPixelR
    position := p.position.getD o.position
    progress := p.progress.getD o.progress
    progressLine := p.progressLine.getD o.progressLine
    smoothing := p.smoothing.getD o.smoothing }

/-- A `Partial<ProgressLineOptions>` record. -/
structure PLPatch where
  color : Option String
  heightPercent : Option ℚ
  position : Option RenderMode
  style : Option LineStyle
  width : Option ℚ
deriving DecidableEq

/-- Spread `{...base, ...cur, ...p}` used by `setProgressLineOptions`:
spreading a null/undefined `cur` contributes nothing. -/
def mergePL (base : ProgressLineOpts) (cur : Option ProgressLineOpts) (p : PLPatch) :
    ProgressLineOpts :=
  let c := cur.getD base
  { color := p.color.getD c.color
    heightPercent := p.heightPercent.getD c.heightPercent
    position := p.position.getD c.position
    style := p.style.getD c.style
    width := p.width.getD c.width }

namespace Utils

/-- Source `normalizeProgress` (src/utils/peaks.ts): Math.max(0, Math.min(1, p)),
viewed on finite inputs. -/
def normalizeProgress (p : ℚ) : ℚ := max 0 (min 1 p)

/-- The running maximum computed by the first loop of source `normalizePeaks`:
maxPeak starts at 1 and is replaced whenever an absolute value exceeds it. -/
def maxPeakOf (peaks : List ℚ) : ℚ :=
  peaks.foldl (fun m v => if |v| > m then |v| else m) 1

/-- The value-level effect of source `normalizePeaks`: every element divided by
the running maximum (which is at least 1). -/
def normalizePeaksList (peaks : List ℚ) : List ℚ :=
  let m := maxPeakOf peaks
  peaks.map (fun v => v / m)

/-- The result record of source `calculateBarDimensions` (src/utils/canvas.ts). -/
structure BarDims where
  height : ℚ
  y : ℚ
deriving DecidableEq

/-- Source `calculateBarDimensions` (src/utils/canvas.ts). -/
def calculateBarDimensions (peak canvasHeight amplitude : ℚ) (position : RenderMode) :
    BarDims :=
  let height := peak * canvasHeight * amplitude
  match position with
  | RenderMode.bottom => { height := height, y := canvasHeight - height }
  | RenderMode.top => { height := height, y := 0 }
  | RenderMode.center => { height := height, y := (canvasHeight - height) / 2 }

/-- The result record of source `calculateLineDimensions` (src/utils/canvas.ts). -/
structure LineDims where
  endY : ℚ
  startY : ℚ
deriving DecidableEq

/-- Source `calculateLineDimensions` (src/utils/canvas.ts). -/
def calculateLineDimensions (lineHeight canvasHeight : ℚ) (position : RenderMode) :
    LineDims :=
  match position with
  | RenderMode.bottom => { endY := canvasHeight, startY := canvasHeight - lineHeight }
  | RenderMode.top => { endY := lineHeight, startY := 0 }
  | RenderMode.center =>
      { endY := (canvasHeight + lineHeight) / 2, startY := (canvasHeight - lineHeight) / 2 }

end Utils

/-- The address-indexed store of JavaScript arrays: address to current contents.
Used to model in-place mutation and reference identity of peaks arrays. -/
def Store : Type := ℕ → List ℚ

/-- Point update of the store. -/
def updateStore (st : Store) (a : ℕ) (v : List ℚ) : Store :=
  fun b => if b = a then v else st b

/-- Source `normalizePeaks` (src/utils/peaks.ts) with its reference semantics:
it writes the scaled values back into the argument array in place and returns
the same array reference (the same address). -/
def normalizePeaksRef (st : Store) (a : ℕ) : Store × ℕ :=
  (updateStore st a (Utils.normalizePeaksList (st a)), a)

/-- A JavaScript number: finite value, signed infinity, or NaN. Negative zero is
not distinguished, which is faithful for the non-negative widths produced by
`getBoundingClientRect`. -/
inductive JSNum where
  | fin (q : ℚ)
  | posInf
  | negInf
  | nan
deriving DecidableEq

namespace JSNum

/-- JS subtraction. -/
def sub : JSNum → JSNum → JSNum
  | nan, _ => nan
  | _, nan => nan
  | fin a, fin b => fin (a - b)
  | fin _, posInf => negInf
  | fin _, negInf => posInf
  | posInf, fin _ => posInf
  | negInf, fin _ => negInf
  | posInf, negInf => posInf
  | negInf, posInf => negInf
  | posInf, posInf => nan
  | negInf, negInf => nan

/-- JS division, with the zero divisor treated as positive zero. -/
def div : JSNum → JSNum → JSNum
  | nan, _ => nan
  | _, nan => nan
  | fin a, fin b =>
      if b = 0 then (if a = 0 then nan else if 0 < a then posInf else negInf)
      else fin (a / b)
  | fin _, posInf => fin 0
  | fin _, negInf => fin 0
  | posInf, fin b => if 0 ≤ b then posInf else negInf
  | negInf, fin b => if 0 ≤ b then negInf else posInf
  | posInf, _ => nan
  | negInf, _ => nan

/-- Math.min: NaN-propagating minimum. -/
def jsMin : JSNum → JSNum → JSNum
  | nan, _ => nan
  | _, nan => nan
  | negInf, _ => negInf
  | _, negInf => negInf
  | posInf, b => b
  | a, posInf => a
  | fin a, fin b => fin (min a b)

/-- Math.max: NaN-propagating maximum. -/
def jsMax : JSNum → JSNum → JSNum
  | nan, _ => nan
  | _, nan => nan
  | posInf, _ => posInf
  | _, posInf => posInf
  | negInf, b => b
  | a, negInf => a
  | fin a, fin b => fin (max a b)

/-- Whether a JS number is a finite value lying in the unit interval. -/
def isUnitInterval : JSNum → Bool
  | fin q => decide (0 ≤ q) && decide (q ≤ 1)
  | _ => false

end JSNum

/-- Source `normalizeProgress` under full JS number semantics:
Math.max(0, Math.min(1, progress)). -/
def normalizeProgressJS (p : JSNum) : JSNum :=
  JSNum.jsMax (JSNum.fin 0) (JSNum.jsMin (JSNum.fin 1) p)

/-- A JavaScript Error object; the id models object identity. -/
structure JSError where
  id : ℕ
  message : String
deriving DecidableEq

/-- A value reaching a catch block: either an Error object or any other value. -/
inductive ThrownValue where
  | err (e : JSError)
  | nonErr (tag : String)
deriving DecidableEq

namespace EventHandlerManager

/-- Source `EventHandlerManager.calculateProgressFromEvent`
(src/event-handler.ts): progress from a mouse event, via the element's
bounding rectangle, under JS number semantics. -/
def calculateProgressFromEvent (clientX rectLeft rectWidth : JSNum) : JSNum :=
  normalizeProgressJS ((clientX.sub rectLeft).div rectWidth)

/-- Source `EventHandlerManager.handleError` (src/event-handler.ts): the error
object forwarded to the error callback. A caught Error passes through
unchanged; any other value is replaced by a fresh generic error. -/
def handleError : ThrownValue → JSError
  | ThrownValue.err e => e
  | ThrownValue.nonErr _ => { id := 0, message := "An unknown error occurred" }

end EventHandlerManager

/-- Per-bar cached geometry, source type `CachedBarData`. -/
structure CachedBarData where
  x : ℚ
  y : ℚ
  width : ℚ
  height : ℚ
  peakValue : ℚ
deriving DecidableEq

/-- A compiled Path2D object; its contents are irrelevant to the verified
properties, only its presence or absence matters. -/
structure PathTok where
  unit : Unit
deriving DecidableEq

/-- A cached geometry entry, source type `RenderCache`. The `id` field models
the object identity of the JavaScript cache object: each call to `buildCache`
allocates a fresh object, so entries are reference-equal exactly when their
ids coincide. -/
structure RenderCacheM where
  canvasWidth : ℚ
  canvasHeight : ℚ
  totalBars : ℤ
  step : ℚ
  singleUnitWidth : ℚ
  bars : List CachedBarData
  lastOptionsHash : ℚ × ℚ × ℚ × ℚ × RenderMode × ℚ
  lastPeaksHash : ℕ × ℚ × ℚ
  staticWaveformPath : Option PathTok
  id : ℕ
deriving DecidableEq

/-- The canvas element's physical pixel size. -/
structure Canvas where
  width : ℚ
  height : ℚ
deriving DecidableEq

namespace CacheManager

/-- Source `CacheManager.createOptionsHash`: the template string
amplitude-barWidth-borderWidth-gap-position-borderRadius, modelled as the
tuple of the six interpolated layout-affecting fields. -/
def createOptionsHash (o : OptionsR) : ℚ × ℚ × ℚ × ℚ × RenderMode × ℚ :=
  (o.amplitude, o.barWidth, o.borderWidth, o.gap, o.position, o.borderRadius)

/-- Source `CacheManager.createPeaksHash`: the template string
length-first-last, where absent entries default to 0 (the JS `|| 0`). -/
def createPeaksHash (peaks : List ℚ) : ℕ × ℚ × ℚ :=
  (peaks.length, peaks.headD 0, peaks.getLastD 0)

/-- The loop body of source `CacheManager.buildCache`: the bar record at
index i. -/
def buildBar (canvasHeight step initialOffset singleUnitWidth : ℚ) (peaks : List ℚ)
    (opts : OptionsR) (i : ℕ) : CachedBarData :=
  let peakIndex := (⌊(i : ℚ) * step⌋).toNat
  let peakValue := |peaks.getD peakIndex 0|
  let x := initialOffset + (i : ℚ) * singleUnitWidth
  let d := Utils.calculateBarDimensions peakValue canvasHeight opts.amplitude opts.position
  { x := x, y := d.y, width := opts.barWidth, height := d.height, peakValue := peakValue }

/-- Source `CacheManager.buildCache`: derives all bar geometry. The `idv`
argument is the allocation id of the freshly built cache object. -/
def buildCache (canvasWidth canvasHeight : ℚ) (peaks : List ℚ) (opts : OptionsR)
    (oh : ℚ × ℚ × ℚ × ℚ × RenderMode × ℚ) (ph : ℕ × ℚ × ℚ) (idv : ℕ) : RenderCacheM :=
  let initialOffset := opts.borderWidth
  let availableWidth := canvasWidth - opts.borderWidth * 2 * initialOffset
  let singleUnitWidth := opts.barWidth + opts.borderWidth * 2 + opts.gap
  let totalBars : ℤ := max 1 ⌊availableWidth / singleUnitWidth⌋
  let step : ℚ := (peaks.length : ℚ) / (totalBars : ℚ)
  { canvasWidth := canvasWidth
    canvasHeight := canvasHeight
    totalBars := totalBars
    step := step
    singleUnitWidth := singleUnitWidth
    bars := (List.range totalBars.toNat).map
      (buildBar canvasHeight step initialOffset singleUnitWidth peaks opts)
    lastOptionsHash := oh
    lastPeaksHash := ph
    staticWaveformPath := none
    id := idv }

/-- The `CacheManager` instance state: the nullable cache field plus the next
allocation id used to model object identity. -/
structure CMState where
  cache : Option RenderCacheM
  nextId : ℕ
deriving DecidableEq

/-- A freshly constructed manager. -/
def initCM : CMState := { cache := none, nextId := 0 }

/-- Source `CacheManager.isCacheValid`. -/
def isCacheValid (st : CMState) (w h : ℚ) (oh : ℚ × ℚ × ℚ × ℚ × RenderMode × ℚ)
    (ph : ℕ × ℚ × ℚ) : Bool :=
  match st.cache with
  | none => false
  | some c =>
      decide (c.canvasWidth = w) && decide (c.canvasHeight = h) &&
        decide (c.lastOptionsHash = oh) && decide (c.lastPeaksHash = ph)

/-- The rebuild arm of `getCache`: build, store, bump the allocation id. -/
def buildAndStore (st : CMState) (w h : ℚ) (peaks : List ℚ) (opts : OptionsR)
    (oh : ℚ × ℚ × ℚ × ℚ × RenderMode × ℚ) (ph : ℕ × ℚ × ℚ) : CMState × RenderCacheM :=
  let c := buildCache w h peaks opts oh ph st.nextId
  ({ cache := some c, nextId := st.nextId + 1 }, c)

/-- Source `CacheManager.getCache`: logical size from physical size and pixel
ratio, fingerprints, validity check (the valid arm returns `this.cache!`,
which the match makes explicit), else rebuild. -/
def getCache (st : CMState) (canvas : Canvas) (dpr : ℚ) (peaks : List ℚ)
    (opts : OptionsR) : CMState × RenderCacheM :=
  let w := canvas.width / dpr
  let h := canvas.height / dpr
  let oh := createOptionsHash opts
  let ph := createPeaksHash peaks
  match st.cache with
  | some c =>
      if c.canvasWidth = w ∧ c.canvasHeight = h ∧ c.lastOptionsHash = oh ∧ c.lastPeaksHash = ph
      then (st, c)
      else buildAndStore st w h peaks opts oh ph
  | none => buildAndStore st w h peaks opts oh ph

/-- Well-formedness of the identity model: the stored entry was allocated
before the next free id. Every reachable state satisfies this. -/
def CMInv (st : CMState) : Bool :=
  match st.cache with
  | none => true
  | some c => decide (c.id < st.nextId)

end CacheManager

namespace WaveformRenderer

/-- The bar count computed inside source `WaveformRenderer.drawWaveformWithColor`
(the `finalTotalBars` local). -/
def drawTotalBars (canvasWidth : ℚ) (opts : OptionsR) : ℤ :=
  let initialOffset := opts.borderWidth
  let availableWidth := canvasWidth - opts.borderWidth * 2 * initialOffset
  let singleUnitWidth := opts.barWidth + opts.borderWidth * 2 + opts.gap
  let totalBars : ℤ := ⌊availableWidth / singleUnitWidth⌋
  max 1 totalBars

end WaveformRenderer

/-- A drawing command issued to the 2D context; renders are modelled as the
trace of issued commands. -/
inductive Op where
  | save
  | restore
  | beginPath
  | clip
  | fill
  | stroke
  | fillPath
  | strokePath
  | rect (x y w h : ℚ)
  | roundRect (x y w h r : ℚ)
  | clearRect (x y w h : ℚ)
  | setFillStyle (c : String)
  | setStrokeStyle (c : String)
  | setLineWidth (w : ℚ)
  | setLineCap
  | setLineDash (dash gap : ℚ)
  | moveTo (x y : ℚ)
  | lineTo (x y : ℚ)
deriving DecidableEq

/-- Platform capability: availability of the rounded-rect primitive on
`Path2D.prototype` and on the rendering context. -/
structure Platform where
  path2dRoundRect : Bool
  ctxRoundRect : Bool
deriving DecidableEq

/-- Source `drawProgressLine` (src/utils/canvas.ts) as a command trace. -/
def drawProgressLineOps (x canvasHeight : ℚ) (pl : ProgressLineOpts) : List Op :=
  let lineHeight := canvasHeight * pl.heightPercent
  let d := Utils.calculateLineDimensions lineHeight canvasHeight pl.position
  [Op.save, Op.setStrokeStyle pl.color, Op.setLineWidth pl.width, Op.setLineCap] ++
    (match pl.style with
      | LineStyle.solid => []
      | LineStyle.dashed => [Op.setLineDash 8 4]
      | LineStyle.dotted => [Op.setLineDash 2 2]) ++
    [Op.beginPath, Op.moveTo x d.startY, Op.lineTo x d.endY, Op.stroke, Op.restore]

namespace RenderingEngine

/-- Source `RenderingEngine.shouldUseFallbackRendering`. -/
def shouldUseFallbackRendering (opts : OptionsR) (staticPath : Option PathTok)
    (plat : Platform) : Bool :=
  decide (opts.borderRadius > 0) && (staticPath.isNone || !plat.path2dRoundRect)

/-- Source `RenderingEngine.renderWithPath`. -/
def renderWithPath (backgroundColor : String) (opts : OptionsR) : List Op :=
  [Op.setFillStyle backgroundColor, Op.fillPath] ++
    (if opts.borderWidth > 0 then
      [Op.setStrokeStyle opts.borderColor, Op.setLineWidth opts.borderWidth, Op.strokePath]
    else [])

/-- Source `RenderingEngine.renderProgressWithPath`. Note the clip rectangle:
its height argument is `canvasWidth`. -/
def renderProgressWithPath (color : String) (progress canvasWidth : ℚ)
    (opts : OptionsR) : List Op :=
  [Op.save, Op.beginPath, Op.rect 0 0 (canvasWidth * progress) canvasWidth, Op.clip,
    Op.setFillStyle color, Op.fillPath] ++
    (if opts.borderWidth > 0 then [Op.setStrokeStyle opts.borderColor, Op.strokePath]
     else []) ++
    [Op.restore]

/-- Source `RenderingEngine.renderBarsWithFallback`. -/
def renderBarsWithFallback (bars : List CachedBarData) (color : String)
    (opts : OptionsR) (plat : Platform) : List Op :=
  [Op.setFillStyle color] ++
    (if opts.borderWidth > 0 then
      [Op.setStrokeStyle opts.borderColor, Op.setLineWidth opts.borderWidth]
    else []) ++
    [Op.beginPath] ++
    bars.map (fun b =>
      if opts.borderRadius > 0 ∧ plat.ctxRoundRect then
        Op.roundRect b.x b.y b.width b.height opts.borderRadius
      else Op.rect b.x b.y b.width b.height) ++
    [Op.fill] ++
    (if opts.borderWidth > 0 then [Op.stroke] else [])

/-- Source `RenderingEngine.renderWithFallback`. -/
def renderWithFallback (cache : RenderCacheM) (color : String) (opts : OptionsR)
    (plat : Platform) : List Op :=
  renderBarsWithFallback cache.bars color opts plat

/-- Source `RenderingEngine.renderProgressWithFallback`. -/
def renderProgressWithFallback (cache : RenderCacheM) (color : String) (progress : ℚ)
    (opts : OptionsR) (plat : Platform) : List Op :=
  [Op.save, Op.beginPath,
    Op.rect 0 0 (cache.canvasWidth * progress) cache.canvasHeight, Op.clip] ++
    renderBarsWithFallback cache.bars color opts plat ++
    [Op.restore]

/-- The engine's pluggable behavior: an optional custom renderer returning its
trace plus the handled flag, and the four optional lifecycle hooks, each
returning the trace it draws. -/
structure EngineCfg where
  customRenderer : Option (RenderCacheM → OptionsR → Option PathTok → List Op × Bool)
  beforeRender : Option (RenderCacheM → OptionsR → List Op)
  afterBackground : Option (RenderCacheM → OptionsR → List Op)
  afterProgress : Option (RenderCacheM → OptionsR → ℚ → List Op)
  afterComplete : Option (RenderCacheM → OptionsR → List Op)

/-- An engine with no custom renderer and no hooks installed. -/
def defaultEngine : EngineCfg := ⟨none, none, none, none, none⟩

/-- Source `RenderingEngine.render` as a command trace. -/
def render (eng : EngineCfg) (cache : RenderCacheM) (opts : OptionsR)
    (staticPath : Option PathTok) (plat : Platform) : List Op :=
  let pre := match eng.beforeRender with
    | some f => f cache opts
    | none => []
  let custom := match eng.customRenderer with
    | some f => f cache opts staticPath
    | none => ([], false)
  if custom.2 then pre ++ custom.1
  else
    pre ++ custom.1 ++
      [Op.clearRect 0 0 cache.canvasWidth cache.canvasHeight] ++
      (if shouldUseFallbackRendering opts staticPath plat then
        renderWithFallback cache opts.backgroundColor opts plat
      else renderWithPath opts.backgroundColor opts) ++
      (match eng.afterBackground with
        | some f => f cache opts
        | none => []) ++
      (if opts.progress > 0 then
        (if shouldUseFallbackRendering opts staticPath plat then
          renderProgressWithFallback cache opts.color opts.progress opts plat
        else renderProgressWithPath opts.color opts.progress cache.canvasWidth opts) ++
          (match eng.afterProgress with
            | some f => f cache opts opts.progress
            | none => [])
      else []) ++
      (match opts.progressLine with
        | some pl =>
            if opts.progress > 0 then
              drawProgressLineOps (cache.canvasWidth * opts.progress) cache.canvasHeight pl
            else []
        | none => []) ++
      (match eng.afterComplete with
        | some f => f cache opts
        | none => [])

end RenderingEngine

/-- The clip rectangles of a trace: every `rect` command immediately followed
by a `clip` command. -/
def clipRects : List Op → List (ℚ × ℚ × ℚ × ℚ)
  | Op.rect x y w h :: Op.clip :: rest => (x, y, w, h) :: clipRects rest
  | _ :: rest => clipRects rest
  | [] => []

/-- Whether a command is `clip`. -/
def isClipOp : Op → Bool
  | Op.clip => true
  | _ => false

/-- Whether a command is `roundRect`. -/
def isRoundRectOp : Op → Bool
  | Op.roundRect _ _ _ _ _ => true
  | _ => false

/-- Whether a command is `fillPath` (a path-mode fill). -/
def isFillPathOp : Op → Bool
  | Op.fillPath => true
  | _ => false

/-- Whether a trace ever invokes the rounded-rect primitive. -/
def hasRoundRect (l : List Op) : Bool := l.any isRoundRectOp

/-- Whether a trace ever fills a compiled path. -/
def hasFillPath (l : List Op) : Bool := l.any isFillPathOp

/-- A notification emitted through the event emitter, source type
`WaveformEvents`. -/
inductive WEvent where
  | ready
  | renderStart
  | renderComplete
  | destroyEv
  | progressChange (p : ℚ)
  | seek (p : ℚ)
  | resizeEv (w h : ℚ)
  | error (e : JSError)
deriving DecidableEq

/-- The mutable state of a `WaveformRenderer` instance that the public
mutators read and write: the destroyed flag, the merged options record, and
the address of the instance's peaks array in the store. -/
structure WRState where
  isDestroyed : Bool
  options : OptionsR
  peaksAddr : ℕ
deriving DecidableEq

namespace WaveformRenderer

/-- Source `WaveformRenderer.handleError`: emit the error unchanged when it is
an Error object, else a fresh generic error. -/
def handleError : ThrownValue → JSError
  | ThrownValue.err e => e
  | ThrownValue.nonErr _ => { id := 0, message := "An unknown error occurred" }

/-- Source constructor option merge: spread defaults then the caller's
partial record, with `progressLine` replaced by the defaults-merged caller
value when the caller passed a truthy one and by null otherwise. The patch
carries a fully resolved progress-line record, so the spread over the
defaults yields that record itself. -/
def constructOptions (p : OptionsPatch) : OptionsR :=
  let base := mergeOptions DEFAULT_OPTIONS p
  { base with
      progressLine :=
        match p.progressLine with
        | some (some pl) => some pl
        | _ => none }

/-- Source constructor, restricted to its validation and state-establishing
effects on peaks and options: rejects an empty peaks array through the error
channel, otherwise normalizes the caller's array in place and records its
address. DOM wiring (context acquisition, observers, listeners) is outside
the model. -/
def construct (st : Store) (a : ℕ) (p : OptionsPatch) :
    Store × Option WRState × List WEvent :=
  if (st a).length = 0 then
    (st, none,
      [WEvent.error (handleError (ThrownValue.err
        ⟨0, "Peaks array is required and must not be empty"⟩))])
  else
    let r := normalizePeaksRef st a
    (r.1, some { isDestroyed := false, options := constructOptions p, peaksAddr := r.2 }, [])

/-- Source `WaveformRenderer.destroy`. Teardown of observers, listeners and
the pending frame has no effect on the modelled state. -/
def destroy (s : WRState) : WRState × List WEvent :=
  if s.isDestroyed then (s, [])
  else ({ s with isDestroyed := true }, [WEvent.destroyEv])

/-- Source `WaveformRenderer.setOptions`. -/
def setOptions (s : WRState) (p : OptionsPatch) : WRState × List WEvent :=
  if s.isDestroyed then (s, [])
  else ({ s with options := mergeOptions s.options p }, [])

/-- Source `WaveformRenderer.setPeaks`: guard on destruction, reject empty
input through the error channel, otherwise normalize the caller's array in
place and record its address. -/
def setPeaks (st : Store) (s : WRState) (a : ℕ) : Store × WRState × List WEvent :=
  if s.isDestroyed then (st, s, [])
  else if (st a).length = 0 then
    (st, s,
      [WEvent.error (handleError (ThrownValue.err ⟨0, "Peaks array must not be empty"⟩))])
  else
    let r := normalizePeaksRef st a
    (r.1, { s with peaksAddr := r.2 }, [])

/-- Source `WaveformRenderer.setProgress`: clamp, store, emit. -/
def setProgress (s : WRState) (q : ℚ) : WRState × List WEvent :=
  if s.isDestroyed then (s, [])
  else
    let np := Utils.normalizeProgress q
    ({ s with options := { s.options with progress := np } }, [WEvent.progressChange np])

/-- Source `WaveformRenderer.setProgressLineOptions`. -/
def setProgressLineOptions (s : WRState) (p : Option PLPatch) : WRState × List WEvent :=
  if s.isDestroyed then (s, [])
  else
    match p with
    | some pp =>
        let base := (DEFAULT_OPTIONS.progressLine).getD
          ⟨"#FF0000", 1, RenderMode.center, LineStyle.solid, 2⟩
        ({ s with options :=
            { s.options with
                progressLine := some (mergePL base s.options.progressLine pp) } }, [])
    | none =>
        ({ s with options := { s.options with progressLine := none } }, [])

end WaveformRenderer

/-- A live (not yet destroyed) renderer state with default options. -/
def liveState : WRState :=
  { isDestroyed := false, options := DEFAULT_OPTIONS, peaksAddr := 0 }

/-- Whether a command is a plain `rect`. -/
def isRectOp : Op → Bool
  | Op.rect _ _ _ _ => true
  | _ => false

/-- Options used by the C2 counterexample: border width 2. -/
def cexOptions : OptionsR :=
  { DEFAULT_OPTIONS with barWidth := 2, borderWidth := 2, gap := 1 }

/-- The concrete cache entry used by the C1 counterexample and witness: an
800×200 logical canvas. -/
def cexCache : RenderCacheM :=
  { canvasWidth := 800
    canvasHeight := 200
    totalBars := 1
    step := 1
    singleUnitWidth := 5
    bars := []
    lastOptionsHash := CacheManager.createOptionsHash DEFAULT_OPTIONS
    lastPeaksHash := (1, 1/2, 1/2)
    staticWaveformPath := none
    id := 0 }

/-- Options for the C1 witness: progress 0.5 and border radius 2. -/
def cexRoundedOptions : OptionsR :=
  { DEFAULT_OPTIONS with progress := 1/2, borderRadius := 2 }

/-- C9: a value routed to the error-reporting path is reported unchanged when
it is already an Error object, and any non-Error value is replaced by a
generic error whose message is exactly "An unknown error occurred" — in both
the renderer's and the event handler manager's error funnels. -/
theorem handleError_normalization (e : JSError) (t : String) :
    WaveformRenderer.handleError (ThrownValue.err e) = e ∧
    (WaveformRenderer.handleError (ThrownValue.nonErr t)).message
      = "An unknown error occurred" ∧
    EventHandlerManager.handleError (ThrownValue.err e) = e ∧
    (EventHandlerManager.handleError (ThrownValue.nonErr t)).message
      = "An unknown error occurred" :=
  ⟨rfl, rfl, rfl, rfl⟩

/-- C3: evaluation of `setProgress` at the failing input. After
`setProgress(0.5)`, the call `setProgress(0.5001)` emits a second
`progressChange` notification and overwrites the stored progress with
0.5001 — the source has no epsilon coalescing, contradicting the
repository's own test which requires no second emission. -/
theorem setProgress_small_delta_still_emits :
    (WaveformRenderer.setProgress
        (WaveformRenderer.setProgress liveState (1/2)).1 (5001/10000)).2
      = [WEvent.progressChange (5001/10000)] ∧
    (WaveformRenderer.setProgress liveState (1/2)).1.options.progress = 1/2 ∧
    (WaveformRenderer.setProgress
        (WaveformRenderer.setProgress liveState (1/2)).1 (5001/10000)).1.options.progress
      = 5001/10000 ∧
    ((5001 : ℚ)/10000) ≠ 1/2 := by
  refine ⟨?_, ?_, ?_, ?_⟩ <;>
    norm_num [WaveformRenderer.setProgress, liveState, Utils.normalizeProgress,
      min_def, max_def]

/-- C8 (amended): the reported seek progress is exactly
clamp((eventX − elementLeft)/elementWidth, 0, 1) under JS number semantics;
with a zero element width the computation is total and yields 1 right of the
element's left edge, 0 left of it, and NaN exactly at it. -/
theorem calculateProgress_clamp (x l : ℚ) (cX lf w : JSNum) :
    EventHandlerManager.calculateProgressFromEvent cX lf w
      = JSNum.jsMax (JSNum.fin 0) (JSNum.jsMin (JSNum.fin 1) ((cX.sub lf).div w)) ∧
    EventHandlerManager.calculateProgressFromEvent (JSNum.fin x) (JSNum.fin l) (JSNum.fin 0)
      = (if l < x then JSNum.fin 1 else if x < l then JSNum.fin 0 else JSNum.nan) := by
  constructor
  · rfl
  · rcases lt_trichotomy l x with hlt | heq | hgt
    · have h0 : x - l ≠ 0 := sub_ne_zero_of_ne (ne_of_gt hlt)
      have hpos : 0 < x - l := sub_pos.mpr hlt
      simp [EventHandlerManager.calculateProgressFromEvent, JSNum.sub, JSNum.div,
        normalizeProgressJS, JSNum.jsMin, JSNum.jsMax, h0, hpos, hlt, max_def]
    · subst heq
      simp [EventHandlerManager.calculateProgressFromEvent, JSNum.sub, JSNum.div,
        normalizeProgressJS, JSNum.jsMin, JSNum.jsMax]
    · have h0 : x - l ≠ 0 := sub_ne_zero_of_ne (ne_of_lt hgt)
      have hneg : ¬ 0 < x - l := by linarith
      have hnlt : ¬ l < x := by linarith
      simp [EventHandlerManager.calculateProgressFromEvent, JSNum.sub, JSNum.div,
        normalizeProgressJS, JSNum.jsMin, JSNum.jsMax, h0, hneg, hgt, hnlt]

/-- C8 counterexample to the claim as stated: a click exactly at the left
edge of a zero-width element yields NaN, which is not a clamped value in
the unit interval. -/
theorem calculateProgress_zero_width_nan :
    EventHandlerManager.calculateProgressFromEvent
        (JSNum.fin 100) (JSNum.fin 100) (JSNum.fin 0) = JSNum.nan ∧
    JSNum.isUnitInterval JSNum.nan = false := by
  refine ⟨?_, rfl⟩
  simp [EventHandlerManager.calculateProgressFromEvent, JSNum.sub, JSNum.div,
    normalizeProgressJS, JSNum.jsMin, JSNum.jsMax]

/-- C7: destroying is idempotent — two destroys from a live state emit
exactly one destroy notification — and after destruction every public
mutator returns the state unchanged with no notifications. -/
theorem destroy_idempotent (s : WRState) (st : Store) (a : ℕ) (p : OptionsPatch)
    (q : ℚ) (plo : Option PLPatch) (h : s.isDestroyed = false) :
    ((WaveformRenderer.destroy s).2 ++
        (WaveformRenderer.destroy (WaveformRenderer.destroy s).1).2).count WEvent.destroyEv
      = 1 ∧
    WaveformRenderer.setOptions (WaveformRenderer.destroy s).1 p
      = ((WaveformRenderer.destroy s).1, []) ∧
    WaveformRenderer.setPeaks st (WaveformRenderer.destroy s).1 a
      = (st, (WaveformRenderer.destroy s).1, []) ∧
    WaveformRenderer.setProgress (WaveformRenderer.destroy s).1 q
      = ((WaveformRenderer.destroy s).1, []) ∧
    WaveformRenderer.setProgressLineOptions (WaveformRenderer.destroy s).1 plo
      = ((WaveformRenderer.destroy s).1, []) := by
  refine ⟨?_, ?_, ?_, ?_, ?_⟩
  · simp [WaveformRenderer.destroy, h]
  · simp [WaveformRenderer.destroy, WaveformRenderer.setOptions, h]
  · simp [WaveformRenderer.destroy, WaveformRenderer.setPeaks, h]
  · simp [WaveformRenderer.destroy, WaveformRenderer.setProgress, h]
  · simp [WaveformRenderer.destroy, WaveformRenderer.setProgressLineOptions, h]

/-- Witness for C7 at a concrete live renderer state. -/
theorem destroy_idempotent_witness :
    liveState.isDestroyed = false ∧
    (((WaveformRenderer.destroy liveState).2 ++
        (WaveformRenderer.destroy (WaveformRenderer.destroy liveState).1).2).count
          WEvent.destroyEv = 1 ∧
      WaveformRenderer.setOptions (WaveformRenderer.destroy liveState).1 emptyPatch
        = ((WaveformRenderer.destroy liveState).1, []) ∧
      WaveformRenderer.setPeaks (fun _ => []) (WaveformRenderer.destroy liveState).1 0
        = ((fun _ => []), (WaveformRenderer.destroy liveState).1, []) ∧
      WaveformRenderer.setProgress (WaveformRenderer.destroy liveState).1 0
        = ((WaveformRenderer.destroy liveState).1, []) ∧
      WaveformRenderer.setProgressLineOptions (WaveformRenderer.destroy liveState).1 none
        = ((WaveformRenderer.destroy liveState).1, [])) :=
  ⟨rfl, destroy_idempotent liveState (fun _ => []) 0 emptyPatch 0 none rfl⟩

/-- The running maximum of `normalizePeaks` never drops below its seed. -/
theorem foldl_peak_ge (xs : List ℚ) :
    ∀ m : ℚ, m ≤ xs.foldl (fun acc v => if |v| > acc then |v| else acc) m := by
  induction xs with
  | nil =>
      intro m
      simp
  | cons y ys ih =>
      intro m
      have step : m ≤ if |y| > m then |y| else m := by
        split
        · exact le_of_lt (by assumption)
        · exact le_refl m
      exact le_trans step (by simpa using ih (if |y| > m then |y| else m))

/-- On an all-zero list the running maximum stays at its non-negative seed. -/
theorem foldl_peak_all_zero (xs : List ℚ) :
    ∀ m : ℚ, 0 ≤ m → (∀ v ∈ xs, v = 0) →
      xs.foldl (fun acc v => if |v| > acc then |v| else acc) m = m := by
  induction xs with
  | nil =>
      intro m _ _
      rfl
  | cons y ys ih =>
      intro m hm hz
      have hy : y = 0 := hz y (List.mem_cons_self y ys)
      have hcond : ¬ (|y| > m) := by
        rw [hy]
        simpa using not_lt.mpr hm
      have harm : (if |y| > m then |y| else m) = m := if_neg hcond
      rw [List.foldl_cons, harm]
      exact ih m hm (fun v hv => hz v (List.mem_cons_of_mem y hv))

/-- A map that returns the list unchanged fixes every element. -/
theorem map_fix_of_eq {f : ℚ → ℚ} :
    ∀ xs : List ℚ, xs.map f = xs → ∀ v ∈ xs, f v = v := by
  intro xs
  induction xs with
  | nil =>
      intro _ v hv
      cases hv
  | cons y ys ih =>
      intro heq v hv
      rw [List.map_cons] at heq
      have hhead : f y = y := (List.cons.injEq _ _ _ _).mp heq |>.1
      have htail : ys.map f = ys := (List.cons.injEq _ _ _ _).mp heq |>.2
      rcases List.mem_cons.mp hv with hv1 | hv2
      · rw [hv1]
        exact hhead
      · exact ih htail v hv2

/-- When the running maximum exceeds 1, dividing through by it changes the
list. -/
theorem normalizePeaksList_changes (xs : List ℚ) (h1 : 1 < Utils.maxPeakOf xs) :
    Utils.normalizePeaksList xs ≠ xs := by
  intro heq
  have hmpos : (0 : ℚ) < Utils.maxPeakOf xs := lt_trans one_pos h1
  have hfix : ∀ v ∈ xs, v / Utils.maxPeakOf xs = v := by
    have := map_fix_of_eq xs (by simpa [Utils.normalizePeaksList] using heq)
    exact this
  have hz : ∀ v ∈ xs, v = 0 := by
    intro v hv
    have hfv := hfix v hv
    by_contra hne
    have hveq : v = v * Utils.maxPeakOf xs :=
      (div_eq_iff (ne_of_gt hmpos)).mp hfv
    have : v * (Utils.maxPeakOf xs - 1) = 0 := by ring_nf; linarith [hveq]
    rcases mul_eq_zero.mp this with hv0 | hm1
    · exact hne hv0
    · have : Utils.maxPeakOf xs = 1 := by linarith
      linarith
  have : Utils.maxPeakOf xs = 1 := by
    have := foldl_peak_all_zero xs 1 (by norm_num) hz
    simpa [Utils.maxPeakOf] using this
  linarith

/-- C10: `normalizePeaks` divides every element in place by the running
maximum (1 or the largest absolute value, whichever is greater) and returns
the same array reference; `setPeaks` and the constructor therefore mutate
the caller-supplied array, visibly whenever that maximum exceeds 1. -/
theorem normalizePeaks_in_place (st : Store) (a : ℕ) (s : WRState) (p : OptionsPatch)
    (hd : s.isDestroyed = false) (hne : (st a).length ≠ 0)
    (hmax : 1 < Utils.maxPeakOf (st a)) :
    (normalizePeaksRef st a).2 = a ∧
    1 ≤ Utils.maxPeakOf (st a) ∧
    (normalizePeaksRef st a).1 a
      = (st a).map (fun v => v / Utils.maxPeakOf (st a)) ∧
    (normalizePeaksRef st a).1 a ≠ st a ∧
    (WaveformRenderer.setPeaks st s a).1 a
      = (st a).map (fun v => v / Utils.maxPeakOf (st a)) ∧
    (WaveformRenderer.setPeaks st s a).2.1.peaksAddr = a ∧
    (WaveformRenderer.setPeaks st s a).1 a ≠ st a ∧
    (WaveformRenderer.construct st a p).1 a
      = (st a).map (fun v => v / Utils.maxPeakOf (st a)) ∧
    (WaveformRenderer.construct st a p).2.1
      = some { isDestroyed := false, options := WaveformRenderer.constructOptions p,
               peaksAddr := a } := by
  have hupd : (normalizePeaksRef st a).1 a
      = (st a).map (fun v => v / Utils.maxPeakOf (st a)) := by
    simp [normalizePeaksRef, updateStore, Utils.normalizePeaksList]
  have hchanged : (normalizePeaksRef st a).1 a ≠ st a := by
    rw [hupd]
    exact normalizePeaksList_changes (st a) hmax
  have hsetPeaks : WaveformRenderer.setPeaks st s a
      = ((normalizePeaksRef st a).1, { s with peaksAddr := a }, []) := by
    simp [WaveformRenderer.setPeaks, hd, hne, normalizePeaksRef]
  have hconstruct : WaveformRenderer.construct st a p
      = ((normalizePeaksRef st a).1,
          some { isDestroyed := false, options := WaveformRenderer.constructOptions p,
                 peaksAddr := a }, []) := by
    simp [WaveformRenderer.construct, hne, normalizePeaksRef]
  refine ⟨rfl, le_of_lt hmax, hupd, hchanged, ?_, ?_, ?_, ?_, ?_⟩
  · rw [hsetPeaks]
    exact hupd
  · rw [hsetPeaks]
  · rw [hsetPeaks]
    exact hchanged
  · rw [hconstruct]
    exact hupd
  · rw [hconstruct]

/-- Witness for C10 at the spec's own example array [1000, 2000, 3000, 4000]. -/
theorem normalizePeaks_in_place_witness :
    (liveState.isDestroyed = false ∧
      ((fun _ => [1000, 2000, 3000, 4000] : Store) 0).length ≠ 0 ∧
      1 < Utils.maxPeakOf ((fun _ => [1000, 2000, 3000, 4000] : Store) 0)) ∧
    ((normalizePeaksRef (fun _ => [1000, 2000, 3000, 4000]) 0).2 = 0 ∧
      1 ≤ Utils.maxPeakOf ((fun _ => [1000, 2000, 3000, 4000] : Store) 0) ∧
      (normalizePeaksRef (fun _ => [1000, 2000, 3000, 4000]) 0).1 0
        = (((fun _ => [1000, 2000, 3000, 4000] : Store) 0).map
            (fun v => v / Utils.maxPeakOf ((fun _ => [1000, 2000, 3000, 4000] : Store) 0))) ∧
      (normalizePeaksRef (fun _ => [1000, 2000, 3000, 4000]) 0).1 0
        ≠ (fun _ => [1000, 2000, 3000, 4000] : Store) 0 ∧
      (WaveformRenderer.setPeaks (fun _ => [1000, 2000, 3000, 4000]) liveState 0).1 0
        = (((fun _ => [1000, 2000, 3000, 4000] : Store) 0).map
            (fun v => v / Utils.maxPeakOf ((fun _ => [1000, 2000, 3000, 4000] : Store) 0))) ∧
      (WaveformRenderer.setPeaks (fun _ => [1000, 2000, 3000, 4000]) liveState 0).2.1.peaksAddr
        = 0 ∧
      (WaveformRenderer.setPeaks (fun _ => [1000, 2000, 3000, 4000]) liveState 0).1 0
        ≠ (fun _ => [1000, 2000, 3000, 4000] : Store) 0 ∧
      (WaveformRenderer.construct (fun _ => [1000, 2000, 3000, 4000]) 0 emptyPatch).1 0
        = (((fun _ => [1000, 2000, 3000, 4000] : Store) 0).map
            (fun v => v / Utils.maxPeakOf ((fun _ => [1000, 2000, 3000, 4000] : Store) 0))) ∧
      (WaveformRenderer.construct (fun _ => [1000, 2000, 3000, 4000]) 0 emptyPatch).2.1
        = some { isDestroyed := false,
                 options := WaveformRenderer.constructOptions emptyPatch,
                 peaksAddr := 0 }) := by
  have hne : ((fun _ => [1000, 2000, 3000, 4000] : Store) 0).length ≠ 0 := by
    norm_num
  have hmax : 1 < Utils.maxPeakOf ((fun _ => [1000, 2000, 3000, 4000] : Store) 0) := by
    norm_num [Utils.maxPeakOf, abs_of_nonneg]
  exact ⟨⟨rfl, hne, hmax⟩,
    normalizePeaks_in_place (fun _ => [1000, 2000, 3000, 4000]) 0 liveState emptyPatch
      rfl hne hmax⟩

/-- C2 (amended): the bar count of a built cache equals
max(1, floor((logicalWidth − 2·borderWidth²)/(barWidth + 2·borderWidth + gap)))
— the available width subtracts twice the square of the border width, because
the source multiplies `borderWidth * 2` by the initial offset, which is itself
`borderWidth`. The count is independent of the peaks array, equals the bars
array length and the count used by `drawWaveformWithColor`, and is 159 at the
spec's 800/1/2/1 instance (where borderWidth² = borderWidth). -/
theorem totalBars_formula (w h : ℚ) (peaks peaks2 : List ℚ) (opts : OptionsR)
    (oh : ℚ × ℚ × ℚ × ℚ × RenderMode × ℚ) (ph : ℕ × ℚ × ℚ) (idv idv2 : ℕ)
    (hp : 0 < opts.barWidth + opts.borderWidth * 2 + opts.gap) :
    (CacheManager.buildCache w h peaks opts oh ph idv).totalBars
        = max 1 ⌊(w - 2 * opts.borderWidth ^ 2) /
            (opts.barWidth + 2 * opts.borderWidth + opts.gap)⌋ ∧
    ((CacheManager.buildCache w h peaks opts oh ph idv).bars.length : ℤ)
        = (CacheManager.buildCache w h peaks opts oh ph idv).totalBars ∧
    (CacheManager.buildCache w h peaks2 opts oh ph idv2).totalBars
        = (CacheManager.buildCache w h peaks opts oh ph idv).totalBars ∧
    WaveformRenderer.drawTotalBars w opts
        = (CacheManager.buildCache w h peaks opts oh ph idv).totalBars ∧
    (w = 800 → opts.borderWidth = 1 → opts.barWidth = 2 → opts.gap = 1 →
      (CacheManager.buildCache w h peaks opts oh ph idv).totalBars = 159) := by
  have hnum : w - opts.borderWidth * 2 * opts.borderWidth
      = w - 2 * opts.borderWidth ^ 2 := by ring
  have hden : opts.barWidth + opts.borderWidth * 2 + opts.gap
      = opts.barWidth + 2 * opts.borderWidth + opts.gap := by ring
  have hmain : (CacheManager.buildCache w h peaks opts oh ph idv).totalBars
      = max 1 ⌊(w - 2 * opts.borderWidth ^ 2) /
          (opts.barWidth + 2 * opts.borderWidth + opts.gap)⌋ := by
    simp [CacheManager.buildCache, hnum, hden]
  refine ⟨hmain, ?_, ?_, ?_, ?_⟩
  · have hpos : (0 : ℤ) ≤ (CacheManager.buildCache w h peaks opts oh ph idv).totalBars := by
      rw [hmain]
      exact le_trans (by norm_num) (le_max_left _ _)
    have hlen : (CacheManager.buildCache w h peaks opts oh ph idv).bars.length
        = (CacheManager.buildCache w h peaks opts oh ph idv).totalBars.toNat := by
      simp only [CacheManager.buildCache, List.length_map, List.length_range]
    rw [hlen]
    exact Int.toNat_of_nonneg hpos
  · simp [CacheManager.buildCache]
  · simp [CacheManager.buildCache, WaveformRenderer.drawTotalBars]
  · intro hw hbw hbar hgap
    rw [hmain, hw, hbw, hbar, hgap]
    have heq : ((800 : ℚ) - 2 * 1 ^ 2) / (2 + 2 * 1 + 1) = 798 / 5 := by norm_num
    rw [heq]
    have hfloor : ⌊(798 : ℚ) / 5⌋ = 159 := by
      rw [Int.floor_eq_iff]
      norm_num
    rw [hfloor]
    norm_num

/-- C2 counterexample to the claim as stated: at logical width 810,
borderWidth 2, barWidth 2, gap 1, the code builds 114 bars while the claimed
formula max(1, floor((810 − 2·2)/7)) yields 115. -/
theorem totalBars_claim_counterexample :
    (CacheManager.buildCache 810 200 [1/2] cexOptions
        (CacheManager.createOptionsHash cexOptions)
        (CacheManager.createPeaksHash [1/2]) 0).totalBars = 114 ∧
    max 1 ⌊((810 : ℚ) - 2 * 2) / (2 + 2 * 2 + 1)⌋ = 115 ∧
    (114 : ℤ) ≠ 115 := by
  refine ⟨?_, ?_, by norm_num⟩
  · have h1 : ((810 : ℚ) - 2 * 2 * 2) / (2 + 2 * 2 + 1) = 802 / 7 := by
      norm_num [cexOptions, DEFAULT_OPTIONS]
    have hfloor : ⌊(802 : ℚ) / 7⌋ = 114 := by
      rw [Int.floor_eq_iff]
      norm_num
    simp [CacheManager.buildCache, cexOptions, DEFAULT_OPTIONS, h1, hfloor]
  · have h2 : ((810 : ℚ) - 2 * 2) / (2 + 2 * 2 + 1) = 806 / 7 := by norm_num
    have hfloor : ⌊(806 : ℚ) / 7⌋ = 115 := by
      rw [Int.floor_eq_iff]
      norm_num
    rw [h2, hfloor]
    norm_num

/-- After any `getCache` call the manager stores exactly the returned entry. -/
theorem getCache_stores_result (st : CacheManager.CMState) (cv : Canvas) (dpr : ℚ)
    (peaks : List ℚ) (opts : OptionsR) :
    (CacheManager.getCache st cv dpr peaks opts).1.cache
      = some (CacheManager.getCache st cv dpr peaks opts).2 := by
  unfold CacheManager.getCache
  cases hc : st.cache with
  | none => simp [CacheManager.buildAndStore]
  | some c =>
      by_cases hv : c.canvasWidth = cv.width / dpr ∧ c.canvasHeight = cv.height / dpr ∧
          c.lastOptionsHash = CacheManager.createOptionsHash opts ∧
          c.lastPeaksHash = CacheManager.createPeaksHash peaks
      · simp [hv, hc]
      · simp [hv, CacheManager.buildAndStore]

/-- The entry returned by `getCache` carries the logical size and the two
fingerprints of the call's inputs. -/
theorem getCache_result_fields (st : CacheManager.CMState) (cv : Canvas) (dpr : ℚ)
    (peaks : List ℚ) (opts : OptionsR) :
    (CacheManager.getCache st cv dpr peaks opts).2.canvasWidth = cv.width / dpr ∧
    (CacheManager.getCache st cv dpr peaks opts).2.canvasHeight = cv.height / dpr ∧
    (CacheManager.getCache st cv dpr peaks opts).2.lastOptionsHash
      = CacheManager.createOptionsHash opts ∧
    (CacheManager.getCache st cv dpr peaks opts).2.lastPeaksHash
      = CacheManager.createPeaksHash peaks := by
  unfold CacheManager.getCache
  cases hc : st.cache with
  | none => simp [CacheManager.buildAndStore, CacheManager.buildCache]
  | some c =>
      by_cases hv : c.canvasWidth = cv.width / dpr ∧ c.canvasHeight = cv.height / dpr ∧
          c.lastOptionsHash = CacheManager.createOptionsHash opts ∧
          c.lastPeaksHash = CacheManager.createPeaksHash peaks
      · simpa [hv] using hv
      · simp [hv, CacheManager.buildAndStore, CacheManager.buildCache]

/-- A call whose inputs match the stored entry's size and fingerprints is a
cache hit: it returns the stored entry and leaves the state unchanged. -/
theorem getCache_hit (st : CacheManager.CMState) (cv : Canvas) (dpr : ℚ)
    (peaks : List ℚ) (opts : OptionsR) (c : RenderCacheM)
    (hc : st.cache = some c)
    (hw : c.canvasWidth = cv.width / dpr) (hh : c.canvasHeight = cv.height / dpr)
    (ho : c.lastOptionsHash = CacheManager.createOptionsHash opts)
    (hp : c.lastPeaksHash = CacheManager.createPeaksHash peaks) :
    CacheManager.getCache st cv dpr peaks opts = (st, c) := by
  unfold CacheManager.getCache
  rw [hc]
  simp [hw, hh, ho, hp]

/-- A call whose logical width disagrees with the stored entry rebuilds: the
returned entry is freshly allocated with id `st.nextId`. -/
theorem getCache_width_miss (st : CacheManager.CMState) (cv : Canvas) (dpr : ℚ)
    (peaks : List ℚ) (opts : OptionsR) (c : RenderCacheM)
    (hc : st.cache = some c)
    (hw : c.canvasWidth ≠ cv.width / dpr) :
    (CacheManager.getCache st cv dpr peaks opts).2.id = st.nextId := by
  unfold CacheManager.getCache
  rw [hc]
  simp [hw, CacheManager.buildAndStore, CacheManager.buildCache]

/-- The allocation id of a returned entry is below the new `nextId`, and the
identity invariant is preserved. -/
theorem getCache_id_bound (st : CacheManager.CMState) (cv : Canvas) (dpr : ℚ)
    (peaks : List ℚ) (opts : OptionsR) (hinv : CacheManager.CMInv st = true) :
    (CacheManager.getCache st cv dpr peaks opts).2.id
      < (CacheManager.getCache st cv dpr peaks opts).1.nextId ∧
    CacheManager.CMInv (CacheManager.getCache st cv dpr peaks opts).1 = true := by
  unfold CacheManager.getCache
  cases hc : st.cache with
  | none =>
      simp [CacheManager.buildAndStore, CacheManager.buildCache, CacheManager.CMInv]
  | some c =>
      have hlt : c.id < st.nextId := by
        simpa [CacheManager.CMInv, hc] using hinv
      by_cases hv : c.canvasWidth = cv.width / dpr ∧ c.canvasHeight = cv.height / dpr ∧
          c.lastOptionsHash = CacheManager.createOptionsHash opts ∧
          c.lastPeaksHash = CacheManager.createPeaksHash peaks
      · simpa [hv, CacheManager.CMInv, hc] using hlt
      · simp [hv, CacheManager.buildAndStore, CacheManager.buildCache, CacheManager.CMInv]

/-- C4: the rebuild decision of `getCache` depends only on the logical canvas
size, the six layout-affecting style fields, and the (length, first, last)
peaks projection. A second call whose inputs agree with the first on all of
these returns the first call's entry unchanged, even when the middle peak
values or any non-layout style field differ. -/
theorem getCache_fingerprint_reuse (st : CacheManager.CMState)
    (cv1 cv2 : Canvas) (d1 d2 : ℚ) (p1 p2 : List ℚ) (o1 o2 : OptionsR)
    (hw : cv1.width / d1 = cv2.width / d2) (hh : cv1.height / d1 = cv2.height / d2)
    (ho : CacheManager.createOptionsHash o1 = CacheManager.createOptionsHash o2)
    (hp : CacheManager.createPeaksHash p1 = CacheManager.createPeaksHash p2) :
    CacheManager.getCache (CacheManager.getCache st cv1 d1 p1 o1).1 cv2 d2 p2 o2
      = ((CacheManager.getCache st cv1 d1 p1 o1).1,
          (CacheManager.getCache st cv1 d1 p1 o1).2) := by
  have hfields := getCache_result_fields st cv1 d1 p1 o1
  exact getCache_hit _ cv2 d2 p2 o2 _
    (getCache_stores_result st cv1 d1 p1 o1)
    (hfields.1.trans hw) (hfields.2.1.trans hh)
    (hfields.2.2.1.trans ho) (hfields.2.2.2.trans hp)

/-- Witness for C4: same manager, same logical size, peaks [1,5,3] then
[1,7,3] (same length/first/last, different middle), options differing only
in colors, progress, smoothing and progress line. -/
theorem getCache_fingerprint_reuse_witness :
    ((8 : ℚ) / 1 = 8 / 1 ∧ (4 : ℚ) / 1 = 4 / 1 ∧
      CacheManager.createOptionsHash DEFAULT_OPTIONS
        = CacheManager.createOptionsHash
            { DEFAULT_OPTIONS with
                color := "#123456", backgroundColor := "#654321", progress := 1/2,
                smoothing := false, progressLine := none } ∧
      CacheManager.createPeaksHash [1, 5, 3] = CacheManager.createPeaksHash [1, 7, 3]) ∧
    CacheManager.getCache
        (CacheManager.getCache CacheManager.initCM ⟨8, 4⟩ 1 [1, 5, 3] DEFAULT_OPTIONS).1
        ⟨8, 4⟩ 1 [1, 7, 3]
        { DEFAULT_OPTIONS with
            color := "#123456", backgroundColor := "#654321", progress := 1/2,
            smoothing := false, progressLine := none }
      = ((CacheManager.getCache CacheManager.initCM ⟨8, 4⟩ 1 [1, 5, 3] DEFAULT_OPTIONS).1,
          (CacheManager.getCache CacheManager.initCM ⟨8, 4⟩ 1 [1, 5, 3] DEFAULT_OPTIONS).2) := by
  have ho : CacheManager.createOptionsHash DEFAULT_OPTIONS
      = CacheManager.createOptionsHash
          { DEFAULT_OPTIONS with
              color := "#123456", backgroundColor := "#654321", progress := 1/2,
              smoothing := false, progressLine := none } := rfl
  have hp : CacheManager.createPeaksHash [1, 5, 3]
      = CacheManager.createPeaksHash [1, 7, 3] := by
    simp [CacheManager.createPeaksHash]
  exact ⟨⟨rfl, rfl, ho, hp⟩,
    getCache_fingerprint_reuse CacheManager.initCM ⟨8, 4⟩ ⟨8, 4⟩ 1 1 [1, 5, 3] [1, 7, 3]
      DEFAULT_OPTIONS _ rfl rfl ho hp⟩

/-- C5: calling `getCache` twice with identical inputs returns the identical
(reference-equal, same allocation id) entry with the manager state unchanged;
changing only the canvas width forces a rebuild — the new entry has a
different allocation id and records the new logical width. -/
theorem getCache_identity_stability (st : CacheManager.CMState)
    (cv cv2 : Canvas) (dpr : ℚ) (peaks : List ℚ) (opts : OptionsR)
    (hinv : CacheManager.CMInv st = true)
    (hw : cv2.width / dpr ≠ cv.width / dpr) (hh : cv2.height = cv.height) :
    CacheManager.getCache (CacheManager.getCache st cv dpr peaks opts).1 cv dpr peaks opts
      = ((CacheManager.getCache st cv dpr peaks opts).1,
          (CacheManager.getCache st cv dpr peaks opts).2) ∧
    (CacheManager.getCache (CacheManager.getCache st cv dpr peaks opts).1
        cv2 dpr peaks opts).2.id
      ≠ (CacheManager.getCache st cv dpr peaks opts).2.id ∧
    (CacheManager.getCache (CacheManager.getCache st cv dpr peaks opts).1
        cv2 dpr peaks opts).2.canvasWidth = cv2.width / dpr := by
  have hfields := getCache_result_fields st cv dpr peaks opts
  have hstore := getCache_stores_result st cv dpr peaks opts
  refine ⟨getCache_hit _ cv dpr peaks opts _ hstore hfields.1 hfields.2.1
      hfields.2.2.1 hfields.2.2.2, ?_, ?_⟩
  · have hmiss := getCache_width_miss (CacheManager.getCache st cv dpr peaks opts).1
      cv2 dpr peaks opts _ hstore (by rw [hfields.1]; exact fun hcl => hw hcl.symm)
    have hbound := getCache_id_bound st cv dpr peaks opts hinv
    rw [hmiss]
    exact fun hcl => absurd (hcl ▸ hbound.1) (lt_irrefl _)
  · exact (getCache_result_fields _ cv2 dpr peaks opts).1

/-- Witness for C5: a fresh manager, an 8×4 canvas, then a 12×4 canvas. -/
theorem getCache_identity_stability_witness :
    (CacheManager.CMInv CacheManager.initCM = true ∧
      (12 : ℚ) / 1 ≠ (8 : ℚ) / 1 ∧ ((4 : ℚ) = (4 : ℚ))) ∧
    (CacheManager.getCache
        (CacheManager.getCache CacheManager.initCM ⟨8, 4⟩ 1 [1/2] DEFAULT_OPTIONS).1
        ⟨8, 4⟩ 1 [1/2] DEFAULT_OPTIONS
      = ((CacheManager.getCache CacheManager.initCM ⟨8, 4⟩ 1 [1/2] DEFAULT_OPTIONS).1,
          (CacheManager.getCache CacheManager.initCM ⟨8, 4⟩ 1 [1/2] DEFAULT_OPTIONS).2) ∧
      (CacheManager.getCache
          (CacheManager.getCache CacheManager.initCM ⟨8, 4⟩ 1 [1/2] DEFAULT_OPTIONS).1
          ⟨12, 4⟩ 1 [1/2] DEFAULT_OPTIONS).2.id
        ≠ (CacheManager.getCache CacheManager.initCM ⟨8, 4⟩ 1 [1/2] DEFAULT_OPTIONS).2.id ∧
      (CacheManager.getCache
          (CacheManager.getCache CacheManager.initCM ⟨8, 4⟩ 1 [1/2] DEFAULT_OPTIONS).1
          ⟨12, 4⟩ 1 [1/2] DEFAULT_OPTIONS).2.canvasWidth = (12 : ℚ) / 1) := by
  have hw : (12 : ℚ) / 1 ≠ (8 : ℚ) / 1 := by norm_num
  exact ⟨⟨rfl, hw, rfl⟩,
    getCache_identity_stability CacheManager.initCM ⟨8, 4⟩ ⟨12, 4⟩ 1 [1/2] DEFAULT_OPTIONS
      rfl hw rfl⟩

/-- A command that is not a plain rect never opens a clip pair. -/
theorem clipRects_cons_nonrect (a : Op) (t : List Op) (ha : isRectOp a = false) :
    clipRects (a :: t) = clipRects t := by
  cases a with
  | rect x y w h => simp [isRectOp] at ha
  | save => rfl
  | restore => rfl
  | beginPath => rfl
  | clip => rfl
  | fill => rfl
  | stroke => rfl
  | fillPath => rfl
  | strokePath => rfl
  | roundRect x y w h r => rfl
  | clearRect x y w h => rfl
  | setFillStyle c => rfl
  | setStrokeStyle c => rfl
  | setLineWidth w => rfl
  | setLineCap => rfl
  | setLineDash d g => rfl
  | moveTo x y => rfl
  | lineTo x y => rfl

/-- A rect not followed by a clip contributes no clip rectangle. -/
theorem clipRects_cons_rect (x y w h : ℚ) (t : List Op)
    (ht : t.head? ≠ some Op.clip) :
    clipRects (Op.rect x y w h :: t) = clipRects t := by
  cases t with
  | nil => rfl
  | cons b t' =>
      cases b with
      | clip => exact absurd rfl ht
      | rect x' y' w' h' => rfl
      | save => rfl
      | restore => rfl
      | beginPath => rfl
      | fill => rfl
      | stroke => rfl
      | fillPath => rfl
      | strokePath => rfl
      | roundRect x' y' w' h' r' => rfl
      | clearRect x' y' w' h' => rfl
      | setFillStyle c => rfl
      | setStrokeStyle c => rfl
      | setLineWidth w' => rfl
      | setLineCap => rfl
      | setLineDash d g => rfl
      | moveTo x' y' => rfl
      | lineTo x' y' => rfl

/-- A trace without clip commands has no clip rectangles. -/
theorem clipRects_eq_nil (l : List Op) (h : l.all (fun o => !isClipOp o) = true) :
    clipRects l = [] := by
  induction l with
  | nil => rfl
  | cons a t ih =>
      rw [List.all_cons, Bool.and_eq_true] at h
      by_cases hr : isRectOp a = true
      · cases a with
        | rect x y w h' =>
            have ht : t.head? ≠ some Op.clip := by
              cases t with
              | nil => simp
              | cons b t' =>
                  rw [List.all_cons, Bool.and_eq_true] at h
                  intro hcl
                  rw [List.head?_cons, Option.some.injEq] at hcl
                  subst hcl
                  simp [isClipOp] at h
            rw [clipRects_cons_rect _ _ _ _ t ht]
            exact ih h.2
        | save => exact absurd hr (by simp [isRectOp])
        | restore => exact absurd hr (by simp [isRectOp])
        | beginPath => exact absurd hr (by simp [isRectOp])
        | clip => exact absurd hr (by simp [isRectOp])
        | fill => exact absurd hr (by simp [isRectOp])
        | stroke => exact absurd hr (by simp [isRectOp])
        | fillPath => exact absurd hr (by simp [isRectOp])
        | strokePath => exact absurd hr (by simp [isRectOp])
        | roundRect x y w h' r => exact absurd hr (by simp [isRectOp])
        | clearRect x y w h' => exact absurd hr (by simp [isRectOp])
        | setFillStyle c => exact absurd hr (by simp [isRectOp])
        | setStrokeStyle c => exact absurd hr (by simp [isRectOp])
        | setLineWidth w => exact absurd hr (by simp [isRectOp])
        | setLineCap => exact absurd hr (by simp [isRectOp])
        | setLineDash d g => exact absurd hr (by simp [isRectOp])
        | moveTo x y => exact absurd hr (by simp [isRectOp])
        | lineTo x y => exact absurd hr (by simp [isRectOp])
      · rw [clipRects_cons_nonrect a t (by simpa using hr)]
        exact ih h.2

/-- Dropping a clip-free prefix that does not end directly before a clip
leaves the clip rectangles unchanged. -/
theorem clipRects_append (l1 l2 : List Op)
    (h1 : l1.all (fun o => !isClipOp o) = true)
    (h2 : l2.head? ≠ some Op.clip) :
    clipRects (l1 ++ l2) = clipRects l2 := by
  induction l1 with
  | nil => rfl
  | cons a t ih =>
      rw [List.all_cons, Bool.and_eq_true] at h1
      by_cases hr : isRectOp a = true
      · cases a with
        | rect x y w h' =>
            have ht : (t ++ l2).head? ≠ some Op.clip := by
              cases t with
              | nil => simpa using h2
              | cons b t' =>
                  rw [List.all_cons, Bool.and_eq_true] at h1
                  intro hcl
                  rw [List.cons_append, List.head?_cons, Option.some.injEq] at hcl
                  subst hcl
                  simp [isClipOp] at h1
            rw [List.cons_append, clipRects_cons_rect _ _ _ _ _ ht]
            exact ih h1.2
        | save => exact absurd hr (by simp [isRectOp])
        | restore => exact absurd hr (by simp [isRectOp])
        | beginPath => exact absurd hr (by simp [isRectOp])
        | clip => exact absurd hr (by simp [isRectOp])
        | fill => exact absurd hr (by simp [isRectOp])
        | stroke => exact absurd hr (by simp [isRectOp])
        | fillPath => exact absurd hr (by simp [isRectOp])
        | strokePath => exact absurd hr (by simp [isRectOp])
        | roundRect x y w h' r => exact absurd hr (by simp [isRectOp])
        | clearRect x y w h' => exact absurd hr (by simp [isRectOp])
        | setFillStyle c => exact absurd hr (by simp [isRectOp])
        | setStrokeStyle c => exact absurd hr (by simp [isRectOp])
        | setLineWidth w => exact absurd hr (by simp [isRectOp])
        | setLineCap => exact absurd hr (by simp [isRectOp])
        | setLineDash d g => exact absurd hr (by simp [isRectOp])
        | moveTo x y => exact absurd hr (by simp [isRectOp])
        | lineTo x y => exact absurd hr (by simp [isRectOp])
      · rw [List.cons_append, clipRects_cons_nonrect a _ (by simpa using hr)]
        exact ih h1.2

/-- The leading clip-pair equation of `clipRects`. -/
theorem clipRects_rect_clip (x y w h : ℚ) (rest : List Op) :
    clipRects (Op.rect x y w h :: Op.clip :: rest) = (x, y, w, h) :: clipRects rest := rfl

/-- The fallback bar pass never issues a clip. -/
theorem renderBars_no_clip (bars : List CachedBarData) (color : String)
    (opts : OptionsR) (plat : Platform) :
    (RenderingEngine.renderBarsWithFallback bars color opts plat).all
      (fun o => !isClipOp o) = true := by
  by_cases hbw : opts.borderWidth > 0 <;>
    simp [RenderingEngine.renderBarsWithFallback, hbw, List.all_append, List.all_map,
      isClipOp, apply_ite, Function.comp, List.all_eq_true] <;>
    · intro x b hb hx
      by_cases hc : 0 < opts.borderRadius ∧ plat.ctxRoundRect = true
      · rw [if_pos hc] at hx
        subst hx
        rfl
      · rw [if_neg hc] at hx
        subst hx
        rfl

/-- The path-mode background pass never issues a clip. -/
theorem renderWithPath_no_clip (color : String) (opts : OptionsR) :
    (RenderingEngine.renderWithPath color opts).all (fun o => !isClipOp o) = true := by
  by_cases hbw : opts.borderWidth > 0 <;>
    simp [RenderingEngine.renderWithPath, hbw, List.all_append, isClipOp]

/-- The progress-line pass never issues a clip. -/
theorem drawProgressLine_no_clip (x ch : ℚ) (pl : ProgressLineOpts) :
    (drawProgressLineOps x ch pl).all (fun o => !isClipOp o) = true := by
  cases hst : pl.style <;>
    simp [drawProgressLineOps, hst, List.all_append, isClipOp]

/-- The render tail after the progress layer (the optional progress line)
never issues a clip. -/
theorem lineTail_no_clip (opt : Option ProgressLineOpts) (p cw ch : ℚ) :
    (match opt with
      | some pl => if p > 0 then drawProgressLineOps (cw * p) ch pl else []
      | none => ([] : List Op)).all (fun o => !isClipOp o) = true := by
  cases opt with
  | none => rfl
  | some pl =>
      show (if p > 0 then drawProgressLineOps (cw * p) ch pl else []).all
          (fun o => !isClipOp o) = true
      by_cases hp : p > 0
      · rw [if_pos hp]
        exact drawProgressLine_no_clip (cw * p) ch pl
      · rw [if_neg hp]
        rfl

/-- The clip rectangles of the fallback progress pass followed by a clip-free
tail: exactly the fallback clip rectangle, whose height is the canvas
height. -/
theorem clipRects_progress_fallback (cache : RenderCacheM) (color : String)
    (progress : ℚ) (opts : OptionsR) (plat : Platform) (l2 : List Op)
    (h2 : l2.all (fun o => !isClipOp o) = true) :
    clipRects (RenderingEngine.renderProgressWithFallback cache color progress opts plat ++ l2)
      = [(0, 0, cache.canvasWidth * progress, cache.canvasHeight)] := by
  have hrest : ((RenderingEngine.renderBarsWithFallback cache.bars color opts plat ++
      [Op.restore]) ++ l2).all (fun o => !isClipOp o) = true := by
    simp only [List.all_append, Bool.and_eq_true]
    exact ⟨⟨renderBars_no_clip cache.bars color opts plat, rfl⟩, h2⟩
  show clipRects (Op.save :: Op.beginPath ::
      Op.rect 0 0 (cache.canvasWidth * progress) cache.canvasHeight :: Op.clip ::
      ((RenderingEngine.renderBarsWithFallback cache.bars color opts plat ++
        [Op.restore]) ++ l2)) = _
  rw [clipRects_cons_nonrect Op.save _ rfl, clipRects_cons_nonrect Op.beginPath _ rfl,
    clipRects_rect_clip, clipRects_eq_nil _ hrest]

/-- The clip rectangles of the path-mode progress pass followed by a clip-free
tail: exactly the path-mode clip rectangle, whose height argument is the
canvas width. -/
theorem clipRects_progress_path (color : String) (progress canvasWidth : ℚ)
    (opts : OptionsR) (l2 : List Op)
    (h2 : l2.all (fun o => !isClipOp o) = true) :
    clipRects (RenderingEngine.renderProgressWithPath color progress canvasWidth opts ++ l2)
      = [(0, 0, canvasWidth * progress, canvasWidth)] := by
  have hrest : (Op.setFillStyle color :: Op.fillPath ::
      (((if opts.borderWidth > 0 then [Op.setStrokeStyle opts.borderColor, Op.strokePath]
         else []) ++ [Op.restore]) ++ l2)).all (fun o => !isClipOp o) = true := by
    by_cases hbw : opts.borderWidth > 0 <;>
      simp [hbw, isClipOp, List.all_append] <;>
      · intro x hx
        simpa [isClipOp] using (List.all_eq_true.mp h2) x hx
  show clipRects (Op.save :: Op.beginPath ::
      Op.rect 0 0 (canvasWidth * progress) canvasWidth :: Op.clip ::
      (Op.setFillStyle color :: Op.fillPath ::
        (((if opts.borderWidth > 0 then [Op.setStrokeStyle opts.borderColor, Op.strokePath]
           else []) ++ [Op.restore]) ++ l2))) = _
  rw [clipRects_cons_nonrect Op.save _ rfl, clipRects_cons_nonrect Op.beginPath _ rfl,
    clipRects_rect_clip, clipRects_eq_nil _ hrest]

/-- Witness for C2 at the spec's 800/1/2/1 instance. -/
theorem totalBars_formula_witness :
    (0 < (2 : ℚ) + 1 * 2 + 1) ∧
    ((CacheManager.buildCache 800 200 [1/2] { DEFAULT_OPTIONS with borderWidth := 1 }
          (CacheManager.createOptionsHash { DEFAULT_OPTIONS with borderWidth := 1 })
          (CacheManager.createPeaksHash [1/2]) 0).totalBars
        = max 1 ⌊((800 : ℚ) - 2 * (1 : ℚ) ^ 2) / (2 + 2 * 1 + 1)⌋ ∧
      (((CacheManager.buildCache 800 200 [1/2] { DEFAULT_OPTIONS with borderWidth := 1 }
            (CacheManager.createOptionsHash { DEFAULT_OPTIONS with borderWidth := 1 })
            (CacheManager.createPeaksHash [1/2]) 0).bars.length : ℤ)
        = (CacheManager.buildCache 800 200 [1/2] { DEFAULT_OPTIONS with borderWidth := 1 }
            (CacheManager.createOptionsHash { DEFAULT_OPTIONS with borderWidth := 1 })
            (CacheManager.createPeaksHash [1/2]) 0).totalBars) ∧
      ((CacheManager.buildCache 800 200 (List.replicate 1000 (1/2))
            { DEFAULT_OPTIONS with borderWidth := 1 }
            (CacheManager.createOptionsHash { DEFAULT_OPTIONS with borderWidth := 1 })
            (CacheManager.createPeaksHash [1/2]) 1).totalBars
        = (CacheManager.buildCache 800 200 [1/2] { DEFAULT_OPTIONS with borderWidth := 1 }
            (CacheManager.createOptionsHash { DEFAULT_OPTIONS with borderWidth := 1 })
            (CacheManager.createPeaksHash [1/2]) 0).totalBars) ∧
      (WaveformRenderer.drawTotalBars 800 { DEFAULT_OPTIONS with borderWidth := 1 }
        = (CacheManager.buildCache 800 200 [1/2] { DEFAULT_OPTIONS with borderWidth := 1 }
            (CacheManager.createOptionsHash { DEFAULT_OPTIONS with borderWidth := 1 })
            (CacheManager.createPeaksHash [1/2]) 0).totalBars) ∧
      ((800 : ℚ) = 800 → ({ DEFAULT_OPTIONS with borderWidth := 1 } : OptionsR).borderWidth = 1 →
        ({ DEFAULT_OPTIONS with borderWidth := 1 } : OptionsR).barWidth = 2 →
        ({ DEFAULT_OPTIONS with borderWidth := 1 } : OptionsR).gap = 1 →
        (CacheManager.buildCache 800 200 [1/2] { DEFAULT_OPTIONS with borderWidth := 1 }
            (CacheManager.createOptionsHash { DEFAULT_OPTIONS with borderWidth := 1 })
            (CacheManager.createPeaksHash [1/2]) 0).totalBars = 159)) := by
  have hp : 0 < ({ DEFAULT_OPTIONS with borderWidth := 1 } : OptionsR).barWidth +
      ({ DEFAULT_OPTIONS with borderWidth := 1 } : OptionsR).borderWidth * 2 +
      ({ DEFAULT_OPTIONS with borderWidth := 1 } : OptionsR).gap := by
    norm_num [DEFAULT_OPTIONS]
  have h := totalBars_formula 800 200 [1/2] (List.replicate 1000 (1/2))
    { DEFAULT_OPTIONS with borderWidth := 1 }
    (CacheManager.createOptionsHash { DEFAULT_OPTIONS with borderWidth := 1 })
    (CacheManager.createPeaksHash [1/2]) 0 1 hp
  refine ⟨by norm_num, ?_, h.2.1, h.2.2.1, h.2.2.2.1, fun _ _ _ _ => h.2.2.2.2 rfl ?_ ?_ ?_⟩
  · have := h.1
    simpa [DEFAULT_OPTIONS] using this
  · norm_num [DEFAULT_OPTIONS]
  · norm_num [DEFAULT_OPTIONS]
  · norm_num [DEFAULT_OPTIONS]

/-- C1 (amended): in every default render with progress > 0 exactly one clip
rectangle is set up, always of width canvasWidth×progress; in the per-bar
fallback mode its height is the canvas height, but in the compiled-path mode
its height argument is the canvas width. -/
theorem progress_clip_rectangles (cache : RenderCacheM) (opts : OptionsR)
    (sp : Option PathTok) (plat : Platform) (hpr : 0 < opts.progress) :
    clipRects (RenderingEngine.render RenderingEngine.defaultEngine cache opts sp plat)
      = (if RenderingEngine.shouldUseFallbackRendering opts sp plat then
          [(0, 0, cache.canvasWidth * opts.progress, cache.canvasHeight)]
        else [(0, 0, cache.canvasWidth * opts.progress, cache.canvasWidth)]) := by
  by_cases hf : RenderingEngine.shouldUseFallbackRendering opts sp plat = true
  · have htrace : RenderingEngine.render RenderingEngine.defaultEngine cache opts sp plat
        = Op.clearRect 0 0 cache.canvasWidth cache.canvasHeight ::
          (RenderingEngine.renderBarsWithFallback cache.bars opts.backgroundColor opts plat ++
            (RenderingEngine.renderProgressWithFallback cache opts.color opts.progress
                opts plat ++
              (match opts.progressLine with
                | some pl =>
                    if opts.progress > 0 then
                      drawProgressLineOps (cache.canvasWidth * opts.progress)
                        cache.canvasHeight pl
                    else []
                | none => []))) := by
      simp [RenderingEngine.render, RenderingEngine.defaultEngine,
        RenderingEngine.renderWithFallback, hf, hpr]
    have hhead : (RenderingEngine.renderProgressWithFallback cache opts.color opts.progress
          opts plat ++
        (match opts.progressLine with
          | some pl =>
              if opts.progress > 0 then
                drawProgressLineOps (cache.canvasWidth * opts.progress) cache.canvasHeight pl
              else []
          | none => [])).head? = some Op.save := rfl
    rw [htrace, if_pos hf,
      clipRects_cons_nonrect (Op.clearRect 0 0 cache.canvasWidth cache.canvasHeight) _ rfl,
      clipRects_append _ _ (renderBars_no_clip cache.bars opts.backgroundColor opts plat)
        (by rw [hhead]; simp),
      clipRects_progress_fallback _ _ _ _ _ _
        (lineTail_no_clip opts.progressLine opts.progress cache.canvasWidth cache.canvasHeight)]
  · have htrace : RenderingEngine.render RenderingEngine.defaultEngine cache opts sp plat
        = Op.clearRect 0 0 cache.canvasWidth cache.canvasHeight ::
          (RenderingEngine.renderWithPath opts.backgroundColor opts ++
            (RenderingEngine.renderProgressWithPath opts.color opts.progress
                cache.canvasWidth opts ++
              (match opts.progressLine with
                | some pl =>
                    if opts.progress > 0 then
                      drawProgressLineOps (cache.canvasWidth * opts.progress)
                        cache.canvasHeight pl
                    else []
                | none => []))) := by
      simp [RenderingEngine.render, RenderingEngine.defaultEngine, hf, hpr]
    have hhead : (RenderingEngine.renderProgressWithPath opts.color opts.progress
          cache.canvasWidth opts ++
        (match opts.progressLine with
          | some pl =>
              if opts.progress > 0 then
                drawProgressLineOps (cache.canvasWidth * opts.progress) cache.canvasHeight pl
              else []
          | none => [])).head? = some Op.save := rfl
    rw [htrace, if_neg hf,
      clipRects_cons_nonrect (Op.clearRect 0 0 cache.canvasWidth cache.canvasHeight) _ rfl,
      clipRects_append _ _ (renderWithPath_no_clip opts.backgroundColor opts)
        (by rw [hhead]; simp),
      clipRects_progress_path _ _ _ _ _
        (lineTail_no_clip opts.progressLine opts.progress cache.canvasWidth cache.canvasHeight)]

/-- C1 counterexample to the claim as stated: in path mode on an 800×200
canvas at progress 0.5 the emitted clip rectangle is 400×800 — its height is
the canvas width, not the canvas height 200 required by the claim. -/
theorem progress_clip_claim_counterexample :
    clipRects (RenderingEngine.render RenderingEngine.defaultEngine cexCache
        { DEFAULT_OPTIONS with progress := 1/2 } (some ⟨()⟩) ⟨true, true⟩)
      = [(0, 0, 400, 800)] ∧
    clipRects (RenderingEngine.render RenderingEngine.defaultEngine cexCache
        { DEFAULT_OPTIONS with progress := 1/2 } (some ⟨()⟩) ⟨true, true⟩)
      ≠ [(0, 0, 400, 200)] := by
  have hmain : clipRects (RenderingEngine.render RenderingEngine.defaultEngine cexCache
      { DEFAULT_OPTIONS with progress := 1/2 } (some ⟨()⟩) ⟨true, true⟩)
      = [(0, 0, 400, 800)] := by
    have htrace : RenderingEngine.render RenderingEngine.defaultEngine cexCache
        { DEFAULT_OPTIONS with progress := 1/2 } (some ⟨()⟩) ⟨true, true⟩
        = Op.clearRect 0 0 800 200 ::
          (RenderingEngine.renderWithPath "#CCCCCC"
              { DEFAULT_OPTIONS with progress := 1/2 } ++
            (RenderingEngine.renderProgressWithPath "#000000" (1/2) 800
                { DEFAULT_OPTIONS with progress := 1/2 } ++
              drawProgressLineOps (800 * (1/2)) 200
                { color := "#FF0000", heightPercent := 1, position := RenderMode.center,
                  style := LineStyle.solid, width := 2 })) := by
      norm_num [RenderingEngine.render, RenderingEngine.defaultEngine,
        RenderingEngine.shouldUseFallbackRendering, DEFAULT_OPTIONS, cexCache]
    have hhead : (RenderingEngine.renderProgressWithPath "#000000" (1/2) 800
          { DEFAULT_OPTIONS with progress := 1/2 } ++
        drawProgressLineOps (800 * (1/2)) 200
          { color := "#FF0000", heightPercent := 1, position := RenderMode.center,
            style := LineStyle.solid, width := 2 }).head? = some Op.save := rfl
    rw [htrace, clipRects_cons_nonrect (Op.clearRect 0 0 800 200) _ rfl,
      clipRects_append _ _ (renderWithPath_no_clip _ _) (by rw [hhead]; simp),
      clipRects_progress_path _ _ _ _ _ (drawProgressLine_no_clip _ _ _)]
    norm_num
  refine ⟨hmain, ?_⟩
  rw [hmain]
  intro hcl
  have := (List.cons.injEq _ _ _ _).mp hcl |>.1
  have h2 := (Prod.mk.injEq _ _ _ _).mp this
  have h3 := (Prod.mk.injEq _ _ _ _).mp h2.2
  have h4 := (Prod.mk.injEq _ _ _ _).mp h3.2
  norm_num at h4

/-- Witness for C1 at a concrete fallback-mode render: border radius 2 with
no compiled path, progress 0.5. -/
theorem progress_clip_rectangles_witness :
    (0 < cexRoundedOptions.progress) ∧
    clipRects (RenderingEngine.render RenderingEngine.defaultEngine cexCache
        cexRoundedOptions none ⟨false, false⟩)
      = (if RenderingEngine.shouldUseFallbackRendering cexRoundedOptions none
            ⟨false, false⟩ then
          [(0, 0, cexCache.canvasWidth * cexRoundedOptions.progress, cexCache.canvasHeight)]
        else
          [(0, 0, cexCache.canvasWidth * cexRoundedOptions.progress, cexCache.canvasWidth)]) :=
  ⟨by norm_num [cexRoundedOptions, DEFAULT_OPTIONS],
    progress_clip_rectangles cexCache cexRoundedOptions none ⟨false, false⟩
      (by norm_num [cexRoundedOptions, DEFAULT_OPTIONS])⟩

/-- The fallback bar pass never fills a compiled path. -/
theorem renderBars_no_fillPath (bars : List CachedBarData) (color : String)
    (opts : OptionsR) (plat : Platform) :
    (RenderingEngine.renderBarsWithFallback bars color opts plat).any isFillPathOp
      = false := by
  by_cases hbw : opts.borderWidth > 0 <;>
    simp [RenderingEngine.renderBarsWithFallback, hbw, List.any_append, List.any_map,
      isFillPathOp, apply_ite, Function.comp, List.any_eq_false] <;>
    · intro x b hb hx
      by_cases hc : 0 < opts.borderRadius ∧ plat.ctxRoundRect = true
      · rw [if_pos hc] at hx
        subst hx
        rfl
      · rw [if_neg hc] at hx
        subst hx
        rfl

/-- The fallback progress pass never fills a compiled path. -/
theorem renderProgressFallback_no_fillPath (cache : RenderCacheM) (color : String)
    (progress : ℚ) (opts : OptionsR) (plat : Platform) :
    (RenderingEngine.renderProgressWithFallback cache color progress opts plat).any
      isFillPathOp = false := by
  simp only [RenderingEngine.renderProgressWithFallback, List.any_append, Bool.or_eq_false_iff]
  refine ⟨⟨by simp [isFillPathOp], renderBars_no_fillPath cache.bars color opts plat⟩, rfl⟩

/-- The progress-line pass never fills a compiled path. -/
theorem drawProgressLine_no_fillPath (x ch : ℚ) (pl : ProgressLineOpts) :
    (drawProgressLineOps x ch pl).any isFillPathOp = false := by
  cases hst : pl.style <;>
    simp [drawProgressLineOps, hst, List.any_append, isFillPathOp]

/-- The optional progress-line tail never fills a compiled path. -/
theorem lineTail_no_fillPath (opt : Option ProgressLineOpts) (p cw ch : ℚ) :
    (match opt with
      | some pl => if p > 0 then drawProgressLineOps (cw * p) ch pl else []
      | none => ([] : List Op)).any isFillPathOp = false := by
  cases opt with
  | none => rfl
  | some pl =>
      show (if p > 0 then drawProgressLineOps (cw * p) ch pl else []).any isFillPathOp = false
      by_cases hp : p > 0
      · rw [if_pos hp]
        exact drawProgressLine_no_fillPath (cw * p) ch pl
      · rw [if_neg hp]
        rfl

/-- The path-mode background pass always fills the compiled path. -/
theorem renderWithPath_has_fillPath (color : String) (opts : OptionsR) :
    (RenderingEngine.renderWithPath color opts).any isFillPathOp = true := by
  simp [RenderingEngine.renderWithPath, List.any_append, isFillPathOp]

/-- With no context rounded-rect primitive, the fallback bar pass draws only
plain rects. -/
theorem renderBars_no_roundRect (bars : List CachedBarData) (color : String)
    (opts : OptionsR) (plat : Platform) (hctx : plat.ctxRoundRect = false) :
    (RenderingEngine.renderBarsWithFallback bars color opts plat).any isRoundRectOp
      = false := by
  have hc : ¬ (0 < opts.borderRadius ∧ plat.ctxRoundRect = true) := by
    simp [hctx]
  by_cases hbw : opts.borderWidth > 0 <;>
    simp [RenderingEngine.renderBarsWithFallback, hbw, List.any_append, List.any_map,
      isRoundRectOp, apply_ite, Function.comp, List.any_eq_false] <;>
    · intro x b hb hx
      rw [if_neg hc] at hx
      subst hx
      rfl

/-- With no context rounded-rect primitive, the fallback progress pass draws
only plain rects. -/
theorem renderProgressFallback_no_roundRect (cache : RenderCacheM) (color : String)
    (progress : ℚ) (opts : OptionsR) (plat : Platform)
    (hctx : plat.ctxRoundRect = false) :
    (RenderingEngine.renderProgressWithFallback cache color progress opts plat).any
      isRoundRectOp = false := by
  simp only [RenderingEngine.renderProgressWithFallback, List.any_append,
    Bool.or_eq_false_iff]
  exact ⟨⟨by simp [isRoundRectOp], renderBars_no_roundRect cache.bars color opts plat hctx⟩,
    rfl⟩

/-- The progress-line pass never draws a rounded rect. -/
theorem drawProgressLine_no_roundRect (x ch : ℚ) (pl : ProgressLineOpts) :
    (drawProgressLineOps x ch pl).any isRoundRectOp = false := by
  cases hst : pl.style <;>
    simp [drawProgressLineOps, hst, List.any_append, isRoundRectOp]

/-- The optional progress-line tail never draws a rounded rect. -/
theorem lineTail_no_roundRect (opt : Option ProgressLineOpts) (p cw ch : ℚ) :
    (match opt with
      | some pl => if p > 0 then drawProgressLineOps (cw * p) ch pl else []
      | none => ([] : List Op)).any isRoundRectOp = false := by
  cases opt with
  | none => rfl
  | some pl =>
      show (if p > 0 then drawProgressLineOps (cw * p) ch pl else []).any isRoundRectOp
        = false
      by_cases hp : p > 0
      · rw [if_pos hp]
        exact drawProgressLine_no_roundRect (cw * p) ch pl
      · rw [if_neg hp]
        rfl

/-- C6: the per-bar fallback mode is chosen exactly when borderRadius > 0 and
either no compiled path was supplied or the Path2D rounded-rect primitive is
unavailable; otherwise the render fills the compiled path; and with border
radius 2 and no rounded-rect support anywhere, the render never invokes the
rounded-rect primitive. -/
theorem fallback_rule (cache : RenderCacheM) (opts : OptionsR) (sp : Option PathTok)
    (plat : Platform) :
    (RenderingEngine.shouldUseFallbackRendering opts sp plat = true
        ↔ (0 < opts.borderRadius ∧ (sp = none ∨ plat.path2dRoundRect = false))) ∧
    hasFillPath (RenderingEngine.render RenderingEngine.defaultEngine cache opts sp plat)
      = !RenderingEngine.shouldUseFallbackRendering opts sp plat ∧
    (opts.borderRadius = 2 → plat.path2dRoundRect = false → plat.ctxRoundRect = false →
      hasRoundRect (RenderingEngine.render RenderingEngine.defaultEngine cache opts sp plat)
        = false) := by
  refine ⟨?_, ?_, ?_⟩
  · simp [RenderingEngine.shouldUseFallbackRendering, Bool.and_eq_true, decide_eq_true_eq,
      Bool.or_eq_true, Option.isNone_iff_eq_none, Bool.not_eq_true', gt_iff_lt]
  · by_cases hf : RenderingEngine.shouldUseFallbackRendering opts sp plat = true
    · by_cases hp : opts.progress > 0
      · have htrace : RenderingEngine.render RenderingEngine.defaultEngine cache opts sp plat
            = Op.clearRect 0 0 cache.canvasWidth cache.canvasHeight ::
              (RenderingEngine.renderBarsWithFallback cache.bars opts.backgroundColor
                  opts plat ++
                (RenderingEngine.renderProgressWithFallback cache opts.color opts.progress
                    opts plat ++
                  (match opts.progressLine with
                    | some pl =>
                        if opts.progress > 0 then
                          drawProgressLineOps (cache.canvasWidth * opts.progress)
                            cache.canvasHeight pl
                        else []
                    | none => []))) := by
          simp [RenderingEngine.render, RenderingEngine.defaultEngine,
            RenderingEngine.renderWithFallback, hf, hp]
        rw [htrace, hf]
        simp only [hasFillPath, List.any_cons, List.any_append,
          renderBars_no_fillPath, renderProgressFallback_no_fillPath, lineTail_no_fillPath]
        simp [isFillPathOp]
      · have htrace : RenderingEngine.render RenderingEngine.defaultEngine cache opts sp plat
            = Op.clearRect 0 0 cache.canvasWidth cache.canvasHeight ::
              (RenderingEngine.renderBarsWithFallback cache.bars opts.backgroundColor
                  opts plat ++
                (match opts.progressLine with
                  | some pl =>
                      if opts.progress > 0 then
                        drawProgressLineOps (cache.canvasWidth * opts.progress)
                          cache.canvasHeight pl
                      else []
                  | none => [])) := by
          simp [RenderingEngine.render, RenderingEngine.defaultEngine,
            RenderingEngine.renderWithFallback, hf, hp]
        rw [htrace, hf]
        simp only [hasFillPath, List.any_cons, List.any_append,
          renderBars_no_fillPath, lineTail_no_fillPath]
        simp [isFillPathOp]
    · have hf' : RenderingEngine.shouldUseFallbackRendering opts sp plat = false := by
        revert hf
        cases RenderingEngine.shouldUseFallbackRendering opts sp plat <;> simp
      rw [hf']
      by_cases hp : opts.progress > 0
      · have htrace : RenderingEngine.render RenderingEngine.defaultEngine cache opts sp plat
            = Op.clearRect 0 0 cache.canvasWidth cache.canvasHeight ::
              (RenderingEngine.renderWithPath opts.backgroundColor opts ++
                (RenderingEngine.renderProgressWithPath opts.color opts.progress
                    cache.canvasWidth opts ++
                  (match opts.progressLine with
                    | some pl =>
                        if opts.progress > 0 then
                          drawProgressLineOps (cache.canvasWidth * opts.progress)
                            cache.canvasHeight pl
                        else []
                    | none => []))) := by
          simp [RenderingEngine.render, RenderingEngine.defaultEngine, hf', hp]
        rw [htrace]
        simp only [hasFillPath, List.any_cons, List.any_append, renderWithPath_has_fillPath]
        simp [isFillPathOp]
      · have htrace : RenderingEngine.render RenderingEngine.defaultEngine cache opts sp plat
            = Op.clearRect 0 0 cache.canvasWidth cache.canvasHeight ::
              (RenderingEngine.renderWithPath opts.backgroundColor opts ++
                (match opts.progressLine with
                  | some pl =>
                      if opts.progress > 0 then
                        drawProgressLineOps (cache.canvasWidth * opts.progress)
                          cache.canvasHeight pl
                      else []
                  | none => [])) := by
          simp [RenderingEngine.render, RenderingEngine.defaultEngine, hf', hp]
        rw [htrace]
        simp only [hasFillPath, List.any_cons, List.any_append, renderWithPath_has_fillPath]
        simp [isFillPathOp]
  · intro hbr hp2 hctx
    have hf : RenderingEngine.shouldUseFallbackRendering opts sp plat = true := by
      simp [RenderingEngine.shouldUseFallbackRendering, hbr, hp2]
    by_cases hp : opts.progress > 0
    · have htrace : RenderingEngine.render RenderingEngine.defaultEngine cache opts sp plat
          = Op.clearRect 0 0 cache.canvasWidth cache.canvasHeight ::
            (RenderingEngine.renderBarsWithFallback cache.bars opts.backgroundColor
                opts plat ++
              (RenderingEngine.renderProgressWithFallback cache opts.color opts.progress
                  opts plat ++
                (match opts.progressLine with
                  | some pl =>
                      if opts.progress > 0 then
                        drawProgressLineOps (cache.canvasWidth * opts.progress)
                          cache.canvasHeight pl
                      else []
                  | none => []))) := by
        simp [RenderingEngine.render, RenderingEngine.defaultEngine,
          RenderingEngine.renderWithFallback, hf, hp]
      rw [htrace]
      simp only [hasRoundRect, List.any_cons, List.any_append,
        renderBars_no_roundRect cache.bars opts.backgroundColor opts plat hctx,
        renderProgressFallback_no_roundRect cache opts.color opts.progress opts plat hctx,
        lineTail_no_roundRect]
      simp [isRoundRectOp]
    · have htrace : RenderingEngine.render RenderingEngine.defaultEngine cache opts sp plat
          = Op.clearRect 0 0 cache.canvasWidth cache.canvasHeight ::
            (RenderingEngine.renderBarsWithFallback cache.bars opts.backgroundColor
                opts plat ++
              (match opts.progressLine with
                | some pl =>
                    if opts.progress > 0 then
                      drawProgressLineOps (cache.canvasWidth * opts.progress)
                        cache.canvasHeight pl
                    else []
                | none => [])) := by
        simp [RenderingEngine.render, RenderingEngine.defaultEngine,
          RenderingEngine.renderWithFallback, hf, hp]
      rw [htrace]
      simp only [hasRoundRect, List.any_cons, List.any_append,
        renderBars_no_roundRect cache.bars opts.backgroundColor opts plat hctx,
        lineTail_no_roundRect]
      simp [isRoundRectOp]

/-- Witness for C6 at border radius 2 with no rounded-rect support and a
compiled path present. -/
theorem fallback_rule_witness :
    ((RenderingEngine.shouldUseFallbackRendering cexRoundedOptions (some ⟨()⟩) ⟨false, false⟩
          = true
        ↔ (0 < cexRoundedOptions.borderRadius ∧
            ((some ⟨()⟩ : Option PathTok) = none ∨
              (⟨false, false⟩ : Platform).path2dRoundRect = false))) ∧
      hasFillPath (RenderingEngine.render RenderingEngine.defaultEngine cexCache
          cexRoundedOptions (some ⟨()⟩) ⟨false, false⟩)
        = !RenderingEngine.shouldUseFallbackRendering cexRoundedOptions (some ⟨()⟩)
            ⟨false, false⟩ ∧
      (cexRoundedOptions.borderRadius = 2 →
        (⟨false, false⟩ : Platform).path2dRoundRect = false →
        (⟨false, false⟩ : Platform).ctxRoundRect = false →
        hasRoundRect (RenderingEngine.render RenderingEngine.defaultEngine cexCache
            cexRoundedOptions (some ⟨()⟩) ⟨false, false⟩) = false)) ∧
    cexRoundedOptions.borderRadius = 2 ∧
    ((⟨false, false⟩ : Platform).path2dRoundRect = false ∧
      (⟨false, false⟩ : Platform).ctxRoundRect = false) :=
  ⟨fallback_rule cexCache cexRoundedOptions (some ⟨()⟩) ⟨false, false⟩,
    rfl, rfl, rfl⟩
